import Mathlib

/-!
Verification of the Remote-Procedure-Call repository (link layer and
transport layer). The C sources are shallowly embedded: machine
integers (uint8_t, uint16_t) become Nat with explicit truncation by
% 256 and % 65536 where the C types truncate; byte buffers become
List Nat; fallible operations return Option; the environment
(allocator success, link send success, queue delivery) is passed as
explicit parameters.
-/

/- ===================== link_layer.c : CRC-8 ===================== -/

/-- One shift-xor round of the CRC-8 inner loop, from the loop body in
crc8_calc and crc8_update (link_layer.c): if the top bit of the 8-bit
accumulator is set, shift left and xor the polynomial 0x07, else just
shift left; the uint8_t cast is the % 256. -/
def crc8_round (crc : Nat) : Nat :=
  if crc &&& 0x80 ≠ 0 then ((crc <<< 1) ^^^ 0x07) % 256 else (crc <<< 1) % 256

/-- The inner for-loop of the CRC functions: j shift-xor rounds
(the source runs it with j = 8). -/
def crc8_rounds : Nat → Nat → Nat
  | 0, crc => crc
  | j + 1, crc => crc8_rounds j (crc8_round crc)

/-- crc8_update from link_layer.c: xor the byte into the accumulator
(uint8_t arithmetic, hence % 256) and run 8 shift-xor rounds. -/
def crc8_update (crc byte : Nat) : Nat :=
  crc8_rounds 8 ((crc ^^^ byte) % 256)

/-- The loop of crc8_calc from link_layer.c, written with its own
inlined body exactly as the source inlines it (it does not call
crc8_update). -/
def crc8_calc_loop (crc : Nat) : List Nat → Nat
  | [] => crc
  | b :: rest => crc8_calc_loop (crc8_rounds 8 ((crc ^^^ b) % 256)) rest

/-- crc8_calc from link_layer.c: block CRC-8 over a byte sequence,
initial value 0. -/
def crc8_calc (data : List Nat) : Nat :=
  crc8_calc_loop 0 data

lemma crc8_calc_loop_eq_foldl (data : List Nat) :
    ∀ c, crc8_calc_loop c data = List.foldl crc8_update c data := by
  induction data with
  | nil => intro c; rfl
  | cons b rest ih =>
      intro c
      show crc8_calc_loop (crc8_rounds 8 ((c ^^^ b) % 256)) rest
        = List.foldl crc8_update (crc8_update c b) rest
      exact ih (crc8_update c b)

lemma crc8_calc_eq_foldl (data : List Nat) :
    crc8_calc data = List.foldl crc8_update 0 data :=
  crc8_calc_loop_eq_foldl data 0

lemma crc8_calc_append_single (xs : List Nat) (b : Nat) :
    crc8_calc (xs ++ [b]) = crc8_update (crc8_calc xs) b := by
  rw [crc8_calc_eq_foldl, crc8_calc_eq_foldl, List.foldl_append]
  rfl

/-- C6: the incremental update agrees with the block function. Folding
crc8_update over the bytes of data starting from CRC value 0 yields
crc8_calc of data; and extending the data by one byte updates the block
CRC by exactly one crc8_update step, so for every prefix of length n,
crc8_calc of the first n+1 bytes equals crc8_update applied to the CRC
of the first n bytes and byte number n. -/
theorem crc8_incremental_agrees :
    (∀ data : List Nat, crc8_calc data = List.foldl crc8_update 0 data)
    ∧ (∀ (xs : List Nat) (b : Nat),
        crc8_calc (xs ++ [b]) = crc8_update (crc8_calc xs) b)
    ∧ (∀ (data : List Nat) (n : Nat), n < data.length →
        crc8_calc (data.take (n + 1))
          = crc8_update (crc8_calc (data.take n)) (data.getD n 0)) := by
  refine ⟨crc8_calc_eq_foldl, crc8_calc_append_single, ?_⟩
  intro data n h
  have htake : data.take (n + 1) = data.take n ++ [data.getD n 0] := by
    rw [List.take_succ]
    have : data[n]? = some (data.getD n 0) := by
      simp [List.getD_eq_getElem?_getD, List.getElem?_eq_getElem h]
    rw [this]
    rfl
  rw [htake, crc8_calc_append_single]

/-- Closed instance of crc8_incremental_agrees at a concrete data
vector and index, discharging its hypothesis. -/
theorem crc8_incremental_agrees_witness :
    crc8_calc ([17, 250, 3].take 2)
      = crc8_update (crc8_calc ([17, 250, 3].take 1)) ([17, 250, 3].getD 1 0) :=
  crc8_incremental_agrees.2.2 [17, 250, 3] 1 (by decide)

/- ================ link_layer.c : frame encoding ================ -/

/-- The five bytes preceding the payload in a frame built by
link_send_frame (link_layer.c): start marker 0xFA, length low byte,
length high byte (uint16 length, so the & 0xFF truncations are % 256
of length and of length >> 8), header CRC over the first three bytes,
data-start marker 0xFB. -/
def link_frame_header (length : Nat) : List Nat :=
  [0xFA, length % 256, (length >>> 8) % 256,
   crc8_calc [0xFA, length % 256, (length >>> 8) % 256], 0xFB]

/-- Bytes 0 .. 5+length of the frame: header then payload. The full
CRC of link_send_frame is folded over exactly these bytes. -/
def link_frame_body (payload : List Nat) : List Nat :=
  link_frame_header payload.length ++ payload

/-- link_send_frame from link_layer.c: the byte sequence written to
the physical layer for a given payload (the function's success path;
its failure returns concern a null payload pointer, allocation
failure and a short physical write, none of which alter the bytes of
a produced frame). Layout: header, payload, full CRC computed by the
crc8_update loop over all preceding bytes, stop marker 0xFE. -/
def link_send_frame (payload : List Nat) : List Nat :=
  link_frame_body payload
    ++ [List.foldl crc8_update 0 (link_frame_body payload), 0xFE]

/- ================ link_layer.c : frame reception ================ -/

/-- The eight states of the receive state machine in
link_receive_frame (link_layer.c). -/
inductive RxSt
  | waitStart
  | lenLow
  | lenHigh
  | hdrCrc
  | dataStart
  | payload
  | fullCrc
  | stop
deriving DecidableEq, Repr

/-- The mutable locals of link_receive_frame: current state, decoded
length, payload index, the three stored header bytes, the running
full CRC, and buf, the cells of the caller's buffer written during
the current frame attempt (the C code writes buffer[idx] for
idx < buffer_size; idx restarts at 0 at each data-start marker, so
cells written by an earlier abandoned attempt are dead and buf is
reset there). -/
structure RxState where
  st : RxSt
  length : Nat
  idx : Nat
  hdr0 : Nat
  hdr1 : Nat
  hdr2 : Nat
  crc : Nat
  buf : List Nat
deriving DecidableEq, Repr

/-- Initial locals of link_receive_frame. -/
def rxInit : RxState :=
  ⟨.waitStart, 0, 0, 0, 0, 0, 0, []⟩

/-- One iteration of the receive loop of link_receive_frame on one
byte: either a new state, or the successful return value (the written
buffer cells and out_len). Each branch mirrors the corresponding case
of the C switch; length accumulation uses the same or / shift as the
source. -/
def rxStep (bufSize : Nat) (s : RxState) (byte : Nat) : RxState ⊕ (List Nat × Nat) :=
  match s.st with
  | .waitStart =>
      if byte = 0xFA then
        .inl { s with st := .lenLow, hdr0 := byte, crc := crc8_update 0 byte }
      else .inl s
  | .lenLow =>
      .inl { s with st := .lenHigh, hdr1 := byte, length := byte,
                    crc := crc8_update s.crc byte }
  | .lenHigh =>
      .inl { s with st := .hdrCrc, hdr2 := byte,
                    length := s.length ||| (byte <<< 8),
                    crc := crc8_update s.crc byte }
  | .hdrCrc =>
      if crc8_calc [s.hdr0, s.hdr1, s.hdr2] = byte then
        .inl { s with st := .dataStart, crc := crc8_update s.crc byte }
      else .inl { s with st := .waitStart }
  | .dataStart =>
      if byte = 0xFB then
        .inl { s with st := if s.length = 0 then .fullCrc else .payload,
                      idx := 0, buf := [], crc := crc8_update s.crc byte }
      else .inl { s with st := .waitStart }
  | .payload =>
      if s.idx < s.length then
        .inl { s with st := if s.idx + 1 ≥ s.length then .fullCrc else .payload,
                      idx := s.idx + 1,
                      buf := if s.idx < bufSize then s.buf ++ [byte] else s.buf,
                      crc := crc8_update s.crc byte }
      else .inl s
  | .fullCrc =>
      if s.length ≤ bufSize ∧ s.crc = byte then
        .inl { s with st := .stop }
      else .inl { s with st := .waitStart }
  | .stop =>
      if byte = 0xFE then .inr (s.buf, s.length)
      else .inl { s with st := .waitStart }

/-- Run the receive loop over a list of bytes, stopping early on a
successful return; if the byte source is exhausted first the result
is the final state (used for reasoning about intermediate states). -/
def rxSteps (bufSize : Nat) (s : RxState) : List Nat → RxState ⊕ (List Nat × Nat)
  | [] => .inl s
  | b :: rest =>
      match rxStep bufSize s b with
      | .inl s' => rxSteps bufSize s' rest
      | .inr r => .inr r

/-- link_receive_frame from link_layer.c, run over the finite byte
sequence the physical layer delivers before reporting an error: some
(buffer, out_len) if a frame is accepted, none if the byte source is
exhausted first (the C function then returns the error -2). -/
def link_receive_frame (bufSize : Nat) (input : List Nat) : Option (List Nat × Nat) :=
  match rxSteps bufSize rxInit input with
  | .inl _ => none
  | .inr r => some r

lemma rxSteps_cons_inl {bufSize : Nat} {s s' : RxState} {b : Nat} {rest : List Nat}
    (h : rxStep bufSize s b = .inl s') :
    rxSteps bufSize s (b :: rest) = rxSteps bufSize s' rest := by
  simp [rxSteps, h]

lemma rxSteps_cons_inr {bufSize : Nat} {s : RxState} {b : Nat} {rest : List Nat}
    {r : List Nat × Nat} (h : rxStep bufSize s b = .inr r) :
    rxSteps bufSize s (b :: rest) = .inr r := by
  simp [rxSteps, h]

lemma rxSteps_append {bufSize : Nat} (xs : List Nat) :
    ∀ (s s' : RxState) (ys : List Nat), rxSteps bufSize s xs = .inl s' →
      rxSteps bufSize s (xs ++ ys) = rxSteps bufSize s' ys := by
  induction xs with
  | nil =>
      intro s s' ys h
      cases h
      rfl
  | cons b rest ih =>
      intro s s' ys h
      cases hstep : rxStep bufSize s b with
      | inl s1 =>
          rw [rxSteps_cons_inl hstep] at h
          rw [List.cons_append, rxSteps_cons_inl hstep]
          exact ih s1 s' ys h
      | inr r =>
          rw [rxSteps_cons_inr hstep] at h
          cases h

lemma lor_shiftLeft_eight (a b : Nat) (ha : a < 256) :
    a ||| (b <<< 8) = 256 * b + a := by
  have ha' : a < 2 ^ 8 := ha
  apply Nat.eq_of_testBit_eq
  intro i
  rw [Nat.testBit_lor, Nat.testBit_shiftLeft,
      show (256 : Nat) * b + a = 2 ^ 8 * b + a by ring,
      Nat.testBit_mul_pow_two_add b ha' i]
  rcases Nat.lt_or_ge i 8 with h | h
  · have h8 : ¬ 8 ≤ i := Nat.not_le.mpr h
    simp [h8, h]
  · have hlt : ¬ i < 8 := Nat.not_lt.mpr h
    have hbit : a.testBit i = false :=
      Nat.testBit_lt_two_pow
        (Nat.lt_of_lt_of_le ha' (Nat.pow_le_pow_right (by norm_num) h))
    simp [h, hlt, hbit]

lemma length_decode (L : Nat) (hL : L ≤ 65535) :
    (L % 256) ||| (((L >>> 8) % 256) <<< 8) = L := by
  have h1 : (L >>> 8) % 256 = L / 256 := by
    rw [Nat.shiftRight_eq_div_pow]
    norm_num
    omega
  rw [h1, lor_shiftLeft_eight _ _ (Nat.mod_lt _ (by norm_num))]
  omega

lemma rxSteps_header (bufSize L : Nat) (hL : L ≤ 65535) :
    rxSteps bufSize rxInit (link_frame_header L)
      = .inl ⟨if L = 0 then .fullCrc else .payload, L, 0, 0xFA,
              L % 256, (L >>> 8) % 256,
              List.foldl crc8_update 0 (link_frame_header L), []⟩ := by
  have hdec := length_decode L hL
  have e1 : rxStep bufSize rxInit 0xFA
      = .inl ⟨.lenLow, 0, 0, 0xFA, 0, 0, crc8_update 0 0xFA, []⟩ := by
    simp [rxStep, rxInit]
  have e2 : rxStep bufSize ⟨.lenLow, 0, 0, 0xFA, 0, 0, crc8_update 0 0xFA, []⟩ (L % 256)
      = .inl ⟨.lenHigh, L % 256, 0, 0xFA, L % 256, 0,
              crc8_update (crc8_update 0 0xFA) (L % 256), []⟩ := rfl
  have e3 : rxStep bufSize
        ⟨.lenHigh, L % 256, 0, 0xFA, L % 256, 0,
         crc8_update (crc8_update 0 0xFA) (L % 256), []⟩ ((L >>> 8) % 256)
      = .inl ⟨.hdrCrc, L, 0, 0xFA, L % 256, (L >>> 8) % 256,
              crc8_update (crc8_update (crc8_update 0 0xFA) (L % 256)) ((L >>> 8) % 256), []⟩ := by
    show Sum.inl _ = _
    rw [hdec]
  have e4 : rxStep bufSize
        ⟨.hdrCrc, L, 0, 0xFA, L % 256, (L >>> 8) % 256,
         crc8_update (crc8_update (crc8_update 0 0xFA) (L % 256)) ((L >>> 8) % 256), []⟩
        (crc8_calc [0xFA, L % 256, (L >>> 8) % 256])
      = .inl ⟨.dataStart, L, 0, 0xFA, L % 256, (L >>> 8) % 256,
              crc8_update (crc8_update (crc8_update (crc8_update 0 0xFA) (L % 256))
                ((L >>> 8) % 256)) (crc8_calc [0xFA, L % 256, (L >>> 8) % 256]), []⟩ := by
    simp [rxStep]
  have e5 : rxStep bufSize
        ⟨.dataStart, L, 0, 0xFA, L % 256, (L >>> 8) % 256,
         crc8_update (crc8_update (crc8_update (crc8_update 0 0xFA) (L % 256))
           ((L >>> 8) % 256)) (crc8_calc [0xFA, L % 256, (L >>> 8) % 256]), []⟩ 0xFB
      = .inl ⟨if L = 0 then .fullCrc else .payload, L, 0, 0xFA, L % 256, (L >>> 8) % 256,
              crc8_update (crc8_update (crc8_update (crc8_update (crc8_update 0 0xFA)
                (L % 256)) ((L >>> 8) % 256)) (crc8_calc [0xFA, L % 256, (L >>> 8) % 256]))
                0xFB, []⟩ := by
    simp [rxStep]
  rw [link_frame_header, rxSteps_cons_inl e1, rxSteps_cons_inl e2, rxSteps_cons_inl e3,
      rxSteps_cons_inl e4, rxSteps_cons_inl e5]
  rfl

lemma rxSteps_payload_run (bufSize : Nat) :
    ∀ (rest : List Nat) (len idx h0 h1 h2 crc : Nat) (buf : List Nat),
      rest ≠ [] → idx + rest.length = len →
      rxSteps bufSize ⟨.payload, len, idx, h0, h1, h2, crc, buf⟩ rest
        = .inl ⟨.fullCrc, len, len, h0, h1, h2,
                List.foldl crc8_update crc rest,
                buf ++ rest.take (bufSize - idx)⟩ := by
  intro rest
  induction rest with
  | nil =>
      intro len idx h0 h1 h2 crc buf hne _
      exact absurd rfl hne
  | cons b rest' ih =>
      intro len idx h0 h1 h2 crc buf _ hlen
      have hidx : idx < len := by
        simp only [List.length_cons] at hlen
        omega
      by_cases hr : rest' = []
      · subst hr
        have hlen' : idx + 1 = len := by
          simp only [List.length_cons, List.length_nil] at hlen
          omega
        have hge : idx + 1 ≥ len := by omega
        have hstep : rxStep bufSize ⟨.payload, len, idx, h0, h1, h2, crc, buf⟩ b
            = .inl ⟨.fullCrc, len, idx + 1, h0, h1, h2, crc8_update crc b,
                    if idx < bufSize then buf ++ [b] else buf⟩ := by
          simp [rxStep, hidx, hge]
        rw [rxSteps_cons_inl hstep]
        show Sum.inl _ = _
        have hbuf : (if idx < bufSize then buf ++ [b] else buf)
            = buf ++ [b].take (bufSize - idx) := by
          by_cases hb : idx < bufSize
          · rw [if_pos hb, show bufSize - idx = (bufSize - idx - 1) + 1 by omega]
            simp
          · rw [if_neg hb, show bufSize - idx = 0 by omega]
            simp
        rw [hbuf, hlen']
        rfl
      · have hlt : idx + 1 < len := by
          simp only [List.length_cons] at hlen
          have : rest'.length ≠ 0 := fun h => hr (List.length_eq_zero.mp h)
          omega
        have hnge : ¬ idx + 1 ≥ len := by omega
        have hstep : rxStep bufSize ⟨.payload, len, idx, h0, h1, h2, crc, buf⟩ b
            = .inl ⟨.payload, len, idx + 1, h0, h1, h2, crc8_update crc b,
                    if idx < bufSize then buf ++ [b] else buf⟩ := by
          simp [rxStep, hidx, hnge]
        rw [rxSteps_cons_inl hstep]
        have hlen2 : (idx + 1) + rest'.length = len := by
          simp only [List.length_cons] at hlen
          omega
        rw [ih len (idx + 1) h0 h1 h2 (crc8_update crc b)
              (if idx < bufSize then buf ++ [b] else buf) hr hlen2]
        show Sum.inl _ = _
        have hbuf : (if idx < bufSize then buf ++ [b] else buf)
              ++ rest'.take (bufSize - (idx + 1))
            = buf ++ (b :: rest').take (bufSize - idx) := by
          by_cases hb : idx < bufSize
          · rw [if_pos hb, show bufSize - idx = (bufSize - (idx + 1)) + 1 by omega]
            simp
          · rw [if_neg hb, show bufSize - idx = 0 by omega,
                show bufSize - (idx + 1) = 0 by omega]
            simp
        rw [hbuf]
        rfl

lemma rxSteps_body (bufSize : Nat) (P : List Nat) (hL : P.length ≤ 65535) :
    rxSteps bufSize rxInit (link_frame_body P)
      = .inl ⟨.fullCrc, P.length, P.length, 0xFA, P.length % 256,
              (P.length >>> 8) % 256,
              List.foldl crc8_update 0 (link_frame_body P), P.take bufSize⟩ := by
  have hH := rxSteps_header bufSize P.length hL
  by_cases hP : P = []
  · subst hP
    rw [link_frame_body, List.append_nil]
    simpa using hH
  · have hlen : P.length ≠ 0 := fun h => hP (List.length_eq_zero.mp h)
    rw [if_neg hlen] at hH
    rw [link_frame_body, rxSteps_append _ _ _ _ hH,
        rxSteps_payload_run bufSize P P.length 0 0xFA (P.length % 256)
          ((P.length >>> 8) % 256)
          (List.foldl crc8_update 0 (link_frame_header P.length)) [] hP
          (by simp)]
    rw [List.foldl_append]
    simp

/-- C2: round-trip. For every payload of length at most 65535, feeding
the frame produced by link_send_frame into link_receive_frame with a
buffer of capacity at least the payload length yields success, with
the output bytes equal to the payload and the output length equal to
the payload length. -/
theorem link_encode_decode_roundtrip (P : List Nat) (bufSize : Nat)
    (hL : P.length ≤ 65535) (hB : P.length ≤ bufSize) :
    link_receive_frame bufSize (link_send_frame P) = some (P, P.length) := by
  have hBody := rxSteps_body bufSize P hL
  rw [List.take_of_length_le hB] at hBody
  have e6 : rxStep bufSize
        ⟨.fullCrc, P.length, P.length, 0xFA, P.length % 256, (P.length >>> 8) % 256,
         List.foldl crc8_update 0 (link_frame_body P), P⟩
        (List.foldl crc8_update 0 (link_frame_body P))
      = .inl ⟨.stop, P.length, P.length, 0xFA, P.length % 256, (P.length >>> 8) % 256,
              List.foldl crc8_update 0 (link_frame_body P), P⟩ := by
    simp [rxStep, hB]
  have e7 : rxStep bufSize
        ⟨.stop, P.length, P.length, 0xFA, P.length % 256, (P.length >>> 8) % 256,
         List.foldl crc8_update 0 (link_frame_body P), P⟩ 0xFE
      = .inr (P, P.length) := by
    simp [rxStep]
  rw [link_receive_frame, link_send_frame, rxSteps_append _ _ _ _ hBody,
      rxSteps_cons_inl e6, rxSteps_cons_inr e7]

/-- Closed instance of link_encode_decode_roundtrip at a concrete
payload, discharging its hypotheses. -/
theorem link_encode_decode_roundtrip_witness :
    link_receive_frame 2 (link_send_frame [7, 8]) = some ([7, 8], 2) :=
  link_encode_decode_roundtrip [7, 8] 2 (by decide) (by decide)

/-- C5: a frame whose declared payload length exceeds the receive
buffer capacity is rejected at the full-CRC step even though both its
CRCs are valid (the frame comes from link_send_frame). First conjunct:
after the body bytes the machine is in the full-CRC state with every
payload byte consumed and folded into the running CRC (which equals
the frame's full CRC over all payload bytes, including those beyond
capacity) while only the first bufSize payload bytes were written to
the output buffer. Second conjunct: consuming the (valid) full-CRC
byte sends the machine back to searching for a start marker. Third
conjunct: the receiver does not return this frame. -/
theorem link_overlong_frame_rejected (P : List Nat) (bufSize : Nat)
    (hL : P.length ≤ 65535) (hB : bufSize < P.length) :
    rxSteps bufSize rxInit (link_frame_body P)
      = .inl ⟨.fullCrc, P.length, P.length, 0xFA, P.length % 256,
              (P.length >>> 8) % 256,
              List.foldl crc8_update 0 (link_frame_body P), P.take bufSize⟩
    ∧ rxSteps bufSize rxInit
        (link_frame_body P ++ [List.foldl crc8_update 0 (link_frame_body P)])
      = .inl ⟨.waitStart, P.length, P.length, 0xFA, P.length % 256,
              (P.length >>> 8) % 256,
              List.foldl crc8_update 0 (link_frame_body P), P.take bufSize⟩
    ∧ link_receive_frame bufSize (link_send_frame P) = none := by
  have hBody := rxSteps_body bufSize P hL
  have hnle : ¬ P.length ≤ bufSize := Nat.not_le.mpr hB
  have e6 : rxStep bufSize
        ⟨.fullCrc, P.length, P.length, 0xFA, P.length % 256, (P.length >>> 8) % 256,
         List.foldl crc8_update 0 (link_frame_body P), P.take bufSize⟩
        (List.foldl crc8_update 0 (link_frame_body P))
      = .inl ⟨.waitStart, P.length, P.length, 0xFA, P.length % 256, (P.length >>> 8) % 256,
              List.foldl crc8_update 0 (link_frame_body P), P.take bufSize⟩ := by
    simp [rxStep, hnle]
  have e7 : rxStep bufSize
        ⟨.waitStart, P.length, P.length, 0xFA, P.length % 256, (P.length >>> 8) % 256,
         List.foldl crc8_update 0 (link_frame_body P), P.take bufSize⟩ 0xFE
      = .inl ⟨.waitStart, P.length, P.length, 0xFA, P.length % 256, (P.length >>> 8) % 256,
              List.foldl crc8_update 0 (link_frame_body P), P.take bufSize⟩ := by
    simp [rxStep]
  refine ⟨hBody, ?_, ?_⟩
  · rw [rxSteps_append _ _ _ _ hBody, rxSteps_cons_inl e6]
    rfl
  · rw [link_receive_frame, link_send_frame, rxSteps_append _ _ _ _ hBody,
        rxSteps_cons_inl e6, rxSteps_cons_inl e7]
    rfl

/-- Closed instance of link_overlong_frame_rejected at a concrete
payload, discharging its hypotheses. -/
theorem link_overlong_frame_rejected_witness :
    link_receive_frame 1 (link_send_frame [3, 4]) = none :=
  (link_overlong_frame_rejected [3, 4] 1 (by decide) (by decide)).2.2

/- ==================== transport.c : registry ==================== -/

/-- A function-registry slot from transport.c: the stored copy of the
name (a C string, modelled as its bytes before the terminator, hence
containing no 0 byte) and the callback, modelled as an opaque
identifier since callbacks are external code. -/
structure RpcEntry where
  name : List Nat
  callback : Nat
deriving DecidableEq, Repr

/-- MAX_FUNCTIONS from transport.c. -/
def MAX_FUNCTIONS : Nat := 8

/-- transport_register_function from transport.c. A none name or
callback models a NULL pointer; allocOk models whether pvPortMalloc
succeeds for the name copy. Returns the C return code and the
registry after the call (the registry grows by appending at
registry_count, so lower indices are earlier registrations). -/
def transport_register_function (reg : List RpcEntry) (name : Option (List Nat))
    (callback : Option Nat) (allocOk : Bool) : Int × List RpcEntry :=
  match name, callback with
  | none, _ => (-1, reg)
  | some _, none => (-1, reg)
  | some nm, some cb =>
      if MAX_FUNCTIONS ≤ reg.length then (-2, reg)
      else if ¬ allocOk then (-3, reg)
      else (0, reg ++ [⟨nm, cb⟩])

/-- find_function from transport.c: linear scan from index 0; an entry
matches when strlen of its stored name equals name_len and strncmp of
the first name_len bytes agrees, which for NUL-free stored names is
exactly name-bytes equality with the first name_len bytes at the name
pointer. -/
def find_function (reg : List RpcEntry) (name : List Nat) (name_len : Nat) :
    Option RpcEntry :=
  match reg with
  | [] => none
  | e :: rest =>
      if e.name.length = name_len ∧ e.name = name.take name_len then some e
      else find_function rest name name_len

/- ============== transport.c : call and pending state ============== -/

/-- The shared transport state of transport.c: current_counter (uint8)
and pending_queue. none models pending_queue == NULL (idle); some slot
models an existing one-deep queue whose slot holds the envelope byte
buffer handed from the receiver task to the caller, if any. -/
structure TState where
  current_counter : Nat
  pending : Option (Option (List Nat))
deriving DecidableEq, Repr

/-- The environment of one transport_call invocation: whether
xQueueCreate succeeds, whether pvPortMalloc for the request payload
succeeds, whether link_send_frame reports success, the envelope that
xQueueReceive obtains from the receiver task within the timeout (none
models a timeout), and whether pvPortMalloc for the caller's response
copy succeeds. -/
structure CallEnv where
  allocQueue : Bool
  allocPayload : Bool
  sendOk : Bool
  recvd : Option (List Nat)
  allocResp : Bool
deriving DecidableEq, Repr

/-- The outcome of transport_call: return code, transport state at
return, the payloads handed to link_send_frame, and the values stored
through the response, resp_len and error_code out-pointers (none
where the C code leaves them unset). -/
structure CallResult where
  rc : Int
  state : TState
  sent : List (List Nat)
  response : Option (List Nat)
  resp_len : Nat
  err_out : Option Nat
deriving DecidableEq, Repr

/-- transport_call from transport.c. The out-pointers are modelled as
valid (their NULL checks fold into the name check, which keeps the -1
path), and the mutex take with portMAX_DELAY as always succeeding, so
the -2 path is unreachable. Each branch mirrors one return of the C
function; note that the -8 branch (allocation failure while copying
the delivered result) returns without touching pending_queue, which
at that point is the still-existing, already-drained queue. -/
def transport_call (env : CallEnv) (st : TState) (name : Option (List Nat))
    (args : List Nat) : CallResult :=
  match name with
  | none => ⟨-1, st, [], none, 0, none⟩
  | some nm =>
      match st.pending with
      | some q => ⟨-3, ⟨st.current_counter, some q⟩, [], none, 0, none⟩
      | none =>
          if ¬ env.allocQueue then ⟨-4, ⟨st.current_counter, none⟩, [], none, 0, none⟩
          else
            let counter := (st.current_counter + 1) % 256
            let payload := 0x0B :: counter :: (nm.take (nm.length % 256) ++ [0] ++ args)
            if ¬ env.allocPayload then ⟨-5, ⟨counter, none⟩, [], none, 0, none⟩
            else if ¬ env.sendOk then ⟨-6, ⟨counter, none⟩, [payload], none, 0, none⟩
            else
              match env.recvd with
              | none => ⟨-7, ⟨counter, none⟩, [payload], none, 0, none⟩
              | some resp_buf =>
                  let datalen := resp_buf.getD 0 0 ||| (resp_buf.getD 1 0 <<< 8)
                  let err := resp_buf.getD 2 0
                  if err = 0 then
                    if 0 < datalen then
                      if env.allocResp then
                        ⟨0, ⟨counter, none⟩, [payload],
                         some ((resp_buf.drop 3).take datalen), datalen, some err⟩
                      else
                        ⟨-8, ⟨counter, some none⟩, [payload], none, datalen, some err⟩
                    else ⟨0, ⟨counter, none⟩, [payload], none, datalen, some err⟩
                  else ⟨0, ⟨counter, none⟩, [payload], none, 0, some err⟩

/- ================ transport.c : receiver task ================ -/

/-- An observable action of the receiver task while dispatching one
frame: a payload handed to link_send_frame, or a registered callback
invoked with argument bytes. -/
inductive RxAction
  | sent (payload : List Nat)
  | invoked (callback : Nat) (args : List Nat)
deriving DecidableEq, Repr

/-- send_error_response from transport.c: the payload
[MSG_TYPE_ERROR][counter][error_code] handed to link_send_frame. -/
def send_error_response (counter errCode : Nat) : List Nat :=
  [0x21, counter, errCode]

/-- send_response from transport.c: the payload
[MSG_TYPE_RESPONSE][counter][data] handed to link_send_frame; if the
payload allocation fails the function sends an internal-error message
instead. -/
def send_response (allocOk : Bool) (counter : Nat) (data : List Nat) : List Nat :=
  if allocOk then 0x16 :: counter :: data else send_error_response counter 2

/-- The first index at or after the running position k holding a zero
byte: the terminator scan of the MSG_TYPE_REQUEST branch of
transport_receiver_task (transport.c), which starts at index 2 and
stops at the end of the frame. -/
def findZeroFrom : List Nat → Nat → Option Nat
  | [], _ => none
  | b :: rest, k => if b = 0 then some k else findZeroFrom rest (k + 1)

/-- The MSG_TYPE_REQUEST branch of transport_receiver_task
(transport.c), which never touches the pending-call state: scan for
the name terminator (missing terminator or a too-short frame sends an
internal error), look the name up with find_function using the
uint8_t-truncated name length, send function-not-found if absent,
otherwise invoke the callback (modelled by cbSem, giving the error
code and response bytes it stores) and send the error or the
response. -/
def handle_request (reg : List RpcEntry) (cbSem : Nat → List Nat → Nat × List Nat)
    (allocResp : Bool) (counter : Nat) (rx : List Nat) : List RxAction :=
  if rx.length < 3 then [.sent (send_error_response counter 2)]
  else
    match findZeroFrom (rx.drop 2) 2 with
    | none => [.sent (send_error_response counter 2)]
    | some i =>
        let name_len := (i - 2) % 256
        let args := rx.drop (i + 1)
        match find_function reg (rx.drop 2) name_len with
        | none => [.sent (send_error_response counter 1)]
        | some e =>
            let r := cbSem e.callback args
            if r.1 ≠ 0 then
              [.invoked e.callback args, .sent (send_error_response counter r.1)]
            else
              [.invoked e.callback args, .sent (send_response allocResp counter r.2)]

/-- The MSG_TYPE_RESPONSE / MSG_TYPE_ERROR branch of
transport_receiver_task (transport.c): under the mutex, if a call is
pending and the message counter equals current_counter, build the
envelope [len_low][len_high][error][data] (for an Error message the
data length is 0 and the error code is byte 2, or ERR_INTERNAL when
the frame is too short to carry one) and push it into the one-slot
queue without blocking; a full slot or a failed envelope allocation
(allocOk false) leaves everything unchanged, as does a counter
mismatch or no pending call. -/
def handle_reply (allocOk : Bool) (st : TState) (typ : Nat) (rx : List Nat) : TState :=
  match st.pending with
  | none => st
  | some slot =>
      if rx.getD 1 0 = st.current_counter then
        let err := if typ = 0x21 then (if 3 ≤ rx.length then rx.getD 2 0 else 2) else 0
        let payload_len := if typ = 0x21 then 0 else rx.length - 2
        if allocOk then
          match slot with
          | none =>
              ⟨st.current_counter,
               some (some (payload_len % 256 :: (payload_len >>> 8) % 256 :: err ::
                 (if typ = 0x16 ∧ 0 < payload_len
                  then (rx.drop 2).take payload_len else [])))⟩
          | some _ => st
        else st
      else st

/-- One iteration of the dispatch loop of transport_receiver_task
(transport.c) on one received frame rx: frames shorter than 2 bytes
are skipped, requests are dispatched (state untouched), replies are
correlated against the pending call, unknown type tags are ignored. -/
def transport_receiver_step (reg : List RpcEntry)
    (cbSem : Nat → List Nat → Nat × List Nat) (allocCopy allocResp : Bool)
    (st : TState) (rx : List Nat) : List RxAction × TState :=
  if rx.length < 2 then ([], st)
  else
    let typ := rx.getD 0 0
    let counter := rx.getD 1 0
    if typ = 0x0B then (handle_request reg cbSem allocResp counter rx, st)
    else if typ = 0x16 ∨ typ = 0x21 then ([], handle_reply allocCopy st typ rx)
    else ([], st)

/- ======================= claim theorems ======================= -/

/-- C1 (code bug exhibit): transport_call clears the pending state
back to idle (pending = none) before returning on success, on send
failure (-6) and on timeout (-7), but on the -8 path — allocation
failure while copying the delivered result — it returns with the
drained pending queue still in place (pending = some none), so a
subsequent call is rejected with -3 instead of being admitted. Inputs:
counter 5, name byte 97, no args; delivered envelope [1, 0, 0, 42]
encodes data length 1, error code 0, one data byte. -/
theorem transport_call_pending_leak_on_alloc_failure :
    (transport_call ⟨true, true, true, some [1, 0, 0, 42], false⟩
        ⟨5, none⟩ (some [97]) []).rc = -8
    ∧ (transport_call ⟨true, true, true, some [1, 0, 0, 42], false⟩
        ⟨5, none⟩ (some [97]) []).state.pending = some none
    ∧ (transport_call ⟨true, true, true, none, true⟩ ⟨6, some none⟩ (some [97]) []).rc = -3
    ∧ (transport_call ⟨true, true, true, some [1, 0, 0, 42], true⟩
        ⟨5, none⟩ (some [97]) []).rc = 0
    ∧ (transport_call ⟨true, true, true, some [1, 0, 0, 42], true⟩
        ⟨5, none⟩ (some [97]) []).state.pending = none
    ∧ (transport_call ⟨true, true, false, none, true⟩ ⟨5, none⟩ (some [97]) []).rc = -6
    ∧ (transport_call ⟨true, true, false, none, true⟩
        ⟨5, none⟩ (some [97]) []).state.pending = none
    ∧ (transport_call ⟨true, true, true, none, true⟩ ⟨5, none⟩ (some [97]) []).rc = -7
    ∧ (transport_call ⟨true, true, true, none, true⟩
        ⟨5, none⟩ (some [97]) []).state.pending = none := by
  decide

/-- C3: whenever a call is already pending (pending_queue exists),
another transport_call invocation fails immediately with a negative
return code, hands nothing to link_send_frame, and leaves the pending
state and the call counter unchanged. -/
theorem transport_call_busy_rejected (env : CallEnv) (st : TState)
    (name : Option (List Nat)) (args : List Nat) (q : Option (List Nat))
    (h : st.pending = some q) :
    (transport_call env st name args).rc < 0
    ∧ (transport_call env st name args).sent = []
    ∧ (transport_call env st name args).state = st := by
  obtain ⟨cc, pend⟩ := st
  simp only at h
  subst h
  cases name with
  | none => exact ⟨by norm_num [transport_call], rfl, rfl⟩
  | some nm => exact ⟨by norm_num [transport_call], rfl, rfl⟩

/-- Closed instance of transport_call_busy_rejected, discharging its
hypothesis at a concrete pending state. -/
theorem transport_call_busy_rejected_witness :
    (transport_call ⟨true, true, true, none, true⟩ ⟨3, some none⟩ (some [97]) []).rc < 0
    ∧ (transport_call ⟨true, true, true, none, true⟩ ⟨3, some none⟩ (some [97]) []).sent = []
    ∧ (transport_call ⟨true, true, true, none, true⟩ ⟨3, some none⟩ (some [97]) []).state
        = ⟨3, some none⟩ :=
  transport_call_busy_rejected ⟨true, true, true, none, true⟩ ⟨3, some none⟩
    (some [97]) [] none rfl

/-- C7 (counterexample): registering an empty (but non-NULL) name is
accepted by transport_register_function — the code checks the name
pointer for NULL, not the name for emptiness — refuting the claim
that an empty name fails. -/
theorem register_empty_name_accepted :
    transport_register_function [] (some []) (some 7) true = (0, [⟨[], 7⟩]) := by
  decide

/-- C7 (amended): transport_register_function fails with a nonzero
return code whenever the name pointer is absent, the callback is
absent, or the registry already holds MAX_FUNCTIONS entries; in each
of these cases the registry is unchanged. -/
theorem register_failure_cases (reg : List RpcEntry) (name : Option (List Nat))
    (cb : Option Nat) (allocOk : Bool)
    (h : name = none ∨ cb = none ∨ MAX_FUNCTIONS ≤ reg.length) :
    (transport_register_function reg name cb allocOk).1 ≠ 0
    ∧ (transport_register_function reg name cb allocOk).2 = reg := by
  rcases h with h | h | h
  · subst h
    exact ⟨by norm_num [transport_register_function], rfl⟩
  · subst h
    cases name with
    | none => exact ⟨by norm_num [transport_register_function], rfl⟩
    | some nm => exact ⟨by norm_num [transport_register_function], rfl⟩
  · cases name with
    | none => exact ⟨by norm_num [transport_register_function], rfl⟩
    | some nm =>
        cases cb with
        | none => exact ⟨by norm_num [transport_register_function], rfl⟩
        | some c =>
            refine ⟨?_, ?_⟩ <;> simp [transport_register_function, h]

/-- Closed instance of register_failure_cases, discharging its
hypothesis with an absent name. -/
theorem register_failure_cases_witness :
    (transport_register_function [] none (some 0) true).1 ≠ 0
    ∧ (transport_register_function [] none (some 0) true).2 = [] :=
  register_failure_cases [] none (some 0) true (Or.inl rfl)

/-- C9: an Error message of length exactly 2 — type byte 0x21 and
counter only, with the error-code byte missing — whose counter matches
the pending call is delivered to the waiting caller as the envelope
[0, 0, 2]: zero result bytes and error code ERR_INTERNAL (2), rather
than being dropped or delivered with error code 0. -/
theorem short_error_message_delivers_internal_error (reg : List RpcEntry)
    (cbSem : Nat → List Nat → Nat × List Nat) (allocResp : Bool) (n : Nat) :
    transport_receiver_step reg cbSem true allocResp ⟨n, some none⟩ [0x21, n]
      = ([], ⟨n, some (some [0, 0, 2])⟩) := by
  simp [transport_receiver_step, handle_reply]

lemma handle_reply_unchanged_of_counter_ne (allocOk : Bool) (st : TState)
    (typ : Nat) (rx : List Nat) (h : rx.getD 1 0 ≠ st.current_counter) :
    handle_reply allocOk st typ rx = st := by
  obtain ⟨cc, pend⟩ := st
  have h' : rx.getD 1 0 ≠ cc := h
  cases pend with
  | none => rfl
  | some slot =>
      simp only [handle_reply]
      rw [if_neg h']

lemma handle_reply_changed_counter_eq (allocOk : Bool) (st : TState)
    (typ : Nat) (rx : List Nat) (h : handle_reply allocOk st typ rx ≠ st) :
    rx.getD 1 0 = st.current_counter := by
  by_contra hc
  exact h (handle_reply_unchanged_of_counter_ne allocOk st typ rx hc)

/-- C4: call correlation by counter. First conjunct: a Response or
Error frame whose counter byte differs from current_counter is
dropped — the receiver step performs no action and leaves the state
(including the pending channel) unchanged. Second conjunct: the only
frames whose processing can change the transport state at all are
Response or Error frames carrying exactly the pending counter, so a
delivery to the waiting caller happens only for a matching counter. -/
theorem reply_correlated_by_counter :
    (∀ (reg : List RpcEntry) (cbSem : Nat → List Nat → Nat × List Nat)
        (aC aR : Bool) (st : TState) (rx : List Nat),
        (rx.getD 0 0 = 0x16 ∨ rx.getD 0 0 = 0x21) →
        rx.getD 1 0 ≠ st.current_counter →
        transport_receiver_step reg cbSem aC aR st rx = ([], st))
    ∧ (∀ (reg : List RpcEntry) (cbSem : Nat → List Nat → Nat × List Nat)
        (aC aR : Bool) (st : TState) (rx : List Nat),
        (transport_receiver_step reg cbSem aC aR st rx).2 ≠ st →
        rx.getD 1 0 = st.current_counter
        ∧ (rx.getD 0 0 = 0x16 ∨ rx.getD 0 0 = 0x21)) := by
  constructor
  · intro reg cbSem aC aR st rx hty hc
    by_cases h2 : rx.length < 2
    · simp only [transport_receiver_step]
      rw [if_pos h2]
    · have hb : ¬ rx.getD 0 0 = 0x0B := by
        rcases hty with h | h <;> rw [h] <;> decide
      simp only [transport_receiver_step]
      rw [if_neg h2, if_neg hb, if_pos hty,
          handle_reply_unchanged_of_counter_ne aC st (rx.getD 0 0) rx hc]
  · intro reg cbSem aC aR st rx h
    by_cases h2 : rx.length < 2
    · refine absurd ?_ h
      simp only [transport_receiver_step]
      rw [if_pos h2]
    by_cases hb : rx.getD 0 0 = 0x0B
    · refine absurd ?_ h
      simp only [transport_receiver_step]
      rw [if_neg h2, if_pos hb]
    by_cases hr : rx.getD 0 0 = 0x16 ∨ rx.getD 0 0 = 0x21
    · refine ⟨?_, hr⟩
      have hstep : (transport_receiver_step reg cbSem aC aR st rx).2
          = handle_reply aC st (rx.getD 0 0) rx := by
        simp only [transport_receiver_step]
        rw [if_neg h2, if_neg hb, if_pos hr]
      rw [hstep] at h
      exact handle_reply_changed_counter_eq aC st (rx.getD 0 0) rx h
    · refine absurd ?_ h
      simp only [transport_receiver_step]
      rw [if_neg h2, if_neg hb, if_neg hr]

/-- Closed instance of reply_correlated_by_counter, discharging its
hypotheses: a stale Response with counter 4 while counter 5 is
pending is dropped without touching the pending state. -/
theorem reply_correlated_by_counter_witness :
    transport_receiver_step [] (fun _ _ => (0, [])) true true ⟨5, some none⟩ [0x16, 4, 9]
      = ([], ⟨5, some none⟩) :=
  reply_correlated_by_counter.1 [] (fun _ _ => (0, [])) true true ⟨5, some none⟩
    [0x16, 4, 9] (Or.inl rfl) (by decide)

lemma findZeroFrom_of_no_zero (name : List Nat) (h : 0 ∉ name) :
    ∀ (k : Nat) (tail : List Nat),
      findZeroFrom (name ++ 0 :: tail) k = some (k + name.length) := by
  induction name with
  | nil => intro k tail; simp [findZeroFrom]
  | cons b rest ih =>
      intro k tail
      have hb : ¬ b = 0 := fun e => h (by simp [e])
      have h' : 0 ∉ rest := fun hr => h (List.mem_cons_of_mem _ hr)
      simp only [List.cons_append, findZeroFrom, List.append_eq]
      rw [if_neg hb, ih h' (k + 1) tail]
      simp only [List.length_cons]
      congr 1
      omega

lemma find_function_eq_none (reg : List RpcEntry) (nm : List Nat) (nl : Nat)
    (h : ∀ e ∈ reg, ¬ (e.name.length = nl ∧ e.name = nm.take nl)) :
    find_function reg nm nl = none := by
  induction reg with
  | nil => rfl
  | cons e rest ih =>
      simp only [find_function]
      rw [if_neg (h e (List.mem_cons_self e rest))]
      exact ih fun e' he' => h e' (List.mem_cons_of_mem _ he')

/-- C8: a Request frame whose NUL-terminated function name matches no
registered entry by exact length-and-bytes equality makes the
dispatch step send back exactly the function-not-found Error payload
[0x21, counter, 0x01] carrying the request's counter, invoke no
callback, and leave the transport state unchanged. The name is a
NUL-free byte sequence of length below 256 (frames come from a
256-byte receive buffer, so the uint8_t name-length cast truncates
nothing). -/
theorem request_unknown_function_sends_not_found (reg : List RpcEntry)
    (cbSem : Nat → List Nat → Nat × List Nat) (allocCopy allocResp : Bool)
    (st : TState) (c : Nat) (name args : List Nat)
    (hz : 0 ∉ name) (hlen : name.length < 256)
    (hreg : ∀ e ∈ reg, e.name ≠ name) :
    transport_receiver_step reg cbSem allocCopy allocResp st
        (0x0B :: c :: (name ++ 0 :: args))
      = ([.sent (send_error_response c 1)], st) := by
  have h2 : ¬ (0x0B :: c :: (name ++ 0 :: args)).length < 2 := by
    simp
  have hty : (0x0B :: c :: (name ++ 0 :: args)).getD 0 0 = 0x0B := rfl
  have hcn : (0x0B :: c :: (name ++ 0 :: args)).getD 1 0 = c := rfl
  have h3 : ¬ (0x0B :: c :: (name ++ 0 :: args)).length < 3 := by
    simp only [List.length_cons, List.length_append]
    omega
  have hdrop : (0x0B :: c :: (name ++ 0 :: args)).drop 2 = name ++ 0 :: args := rfl
  have hfz : findZeroFrom ((0x0B :: c :: (name ++ 0 :: args)).drop 2) 2
      = some (2 + name.length) := by
    rw [hdrop]
    exact findZeroFrom_of_no_zero name hz 2 args
  have hnl : (2 + name.length - 2) % 256 = name.length := by
    have he : 2 + name.length - 2 = name.length := by omega
    rw [he]
    exact Nat.mod_eq_of_lt hlen
  have htake : (name ++ 0 :: args).take name.length = name :=
    List.take_left name (0 :: args)
  have hff : find_function reg ((0x0B :: c :: (name ++ 0 :: args)).drop 2)
      ((2 + name.length - 2) % 256) = none := by
    rw [hdrop, hnl]
    refine find_function_eq_none reg (name ++ 0 :: args) name.length ?_
    intro e he hcontra
    exact hreg e he (hcontra.2.trans htake)
  simp only [transport_receiver_step, handle_request]
  rw [if_neg h2, hty]
  rw [if_pos rfl, if_neg h3, hfz]
  simp only
  rw [hff]
  rw [hcn]

/-- Closed instance of request_unknown_function_sends_not_found,
discharging its hypotheses: the registry holds only the name [115]
and the request names [97]. -/
theorem request_unknown_function_sends_not_found_witness :
    transport_receiver_step [⟨[115], 4⟩] (fun _ _ => (0, [])) true true ⟨0, none⟩
        (0x0B :: 9 :: ([97] ++ 0 :: [1, 2]))
      = ([.sent (send_error_response 9 1)], ⟨0, none⟩) :=
  request_unknown_function_sends_not_found [⟨[115], 4⟩] (fun _ _ => (0, [])) true true
    ⟨0, none⟩ 9 [97] [1, 2] (by decide) (by decide) (by decide)

/-- C10: duplicate names and lookup order. First conjunct: below
capacity, registration always appends a new entry at the end of the
registry regardless of whether the name is already present, so
duplicate registration is accepted and earlier registrations sit at
lower indices. Second conjunct: find_function — the only lookup the
dispatch loop performs — returns the matching entry with the lowest
index: if entry i matches the request name and no entry below i
matches, the scan returns entry i. In particular, with two entries
carrying the same name, every lookup returns the one registered
earliest. -/
theorem registry_duplicate_lookup_first_match :
    (∀ (reg : List RpcEntry) (nm : List Nat) (cb : Nat),
        reg.length < MAX_FUNCTIONS →
        transport_register_function reg (some nm) (some cb) true
          = (0, reg ++ [⟨nm, cb⟩]))
    ∧ (∀ (reg : List RpcEntry) (nm : List Nat) (nl i : Nat) (hi : i < reg.length),
        ((reg.get ⟨i, hi⟩).name.length = nl ∧ (reg.get ⟨i, hi⟩).name = nm.take nl) →
        (∀ (j : Nat) (hj : j < reg.length), j < i →
          ¬ ((reg.get ⟨j, hj⟩).name.length = nl
              ∧ (reg.get ⟨j, hj⟩).name = nm.take nl)) →
        find_function reg nm nl = some (reg.get ⟨i, hi⟩)) := by
  constructor
  · intro reg nm cb h
    simp only [transport_register_function]
    rw [if_neg (Nat.not_le.mpr h)]
    simp
  · intro reg
    induction reg with
    | nil => intro nm nl i hi; exact absurd hi (Nat.not_lt_zero i)
    | cons e rest ih =>
        intro nm nl i hi hm hfirst
        cases i with
        | zero =>
            simp only [List.get] at hm
            simp only [find_function]
            rw [if_pos hm]
            rfl
        | succ i' =>
            have hne : ¬ (e.name.length = nl ∧ e.name = nm.take nl) := by
              have := hfirst 0 (Nat.succ_pos _) (Nat.succ_pos i')
              simpa using this
            simp only [find_function]
            rw [if_neg hne]
            have hi' : i' < rest.length := Nat.lt_of_succ_lt_succ hi
            have hm' : (rest.get ⟨i', hi'⟩).name.length = nl
                ∧ (rest.get ⟨i', hi'⟩).name = nm.take nl := hm
            have hfirst' : ∀ (j : Nat) (hj : j < rest.length), j < i' →
                ¬ ((rest.get ⟨j, hj⟩).name.length = nl
                    ∧ (rest.get ⟨j, hj⟩).name = nm.take nl) := by
              intro j hj hji
              have := hfirst (j + 1) (Nat.succ_lt_succ hj) (Nat.succ_lt_succ hji)
              simpa using this
            exact ih nm nl i' hi' hm' hfirst'

/-- Closed instance of registry_duplicate_lookup_first_match: a second
entry with the duplicate name [97] is appended by registration, and
lookup of [97] returns the entry registered first (callback 1, index
0), not the later duplicate (callback 2). -/
theorem registry_duplicate_lookup_first_match_witness :
    transport_register_function [⟨[97], 1⟩] (some [97]) (some 2) true
      = (0, [⟨[97], 1⟩, ⟨[97], 2⟩])
    ∧ find_function [⟨[97], 1⟩, ⟨[97], 2⟩] [97, 0, 5] 1 = some ⟨[97], 1⟩ :=
  ⟨registry_duplicate_lookup_first_match.1 [⟨[97], 1⟩] [97] 2 (by decide),
   registry_duplicate_lookup_first_match.2 [⟨[97], 1⟩, ⟨[97], 2⟩] [97, 0, 5] 1 0
     (by decide) (by decide) (fun j hj hji => absurd hji (Nat.not_lt_zero j))⟩
